import Mathlib

/-!
Shallow embedding of the sdk-kernel interface-injection core:

* `pkg/kernel/nsswitch/ns_switch.go` — the `NSSwitch` namespace switcher
  (`NewNSSwitch`, `SwitchTo`, `Close`);
* `pkg/kernel/networkservice/inject/server.go` — the inject chain element
  (`Request`, `Close`, `initNetNSSwitchAndHandle`,
  `moveInterfaceToAnotherNamespace`).

The OS is modelled as an explicit state `Sys`: the operating thread's current
network namespace identity, a table of open namespace handles (file
descriptors mapping to namespace identities), the namespace membership of
each named kernel interface, a syscall clock, a counter of issued
set-current-namespace calls, and a counter of emitted warning logs.
An environment `Env` supplies injected failures for fallible OS calls
(indexed by the syscall clock) and the resolution of namespace URL paths.
Each netns/netlink primitive consumed by the source is embedded as an
explicit state-passing function returning `Except Unit` results.
-/

/-- Association lookup in the open-handle table: fd to namespace identity. -/
def lookupFd : List (Int × Nat) → Int → Option Nat
  | [], _ => none
  | (fd, ns) :: rest, x => if fd = x then some ns else lookupFd rest x

/-- Remove an fd from the open-handle table (handle release). -/
def removeFd : List (Int × Nat) → Int → List (Int × Nat)
  | [], _ => []
  | (fd, ns) :: rest, x =>
    if fd = x then removeFd rest x else (fd, ns) :: removeFd rest x

/-- Namespace membership of a named interface. -/
def lookupIface : List (String × Nat) → String → Option Nat
  | [], _ => none
  | (m, ns) :: rest, n => if m = n then some ns else lookupIface rest n

/-- Reassign a named interface's namespace membership. -/
def setIface : List (String × Nat) → String → Nat → List (String × Nat)
  | [], n, ns => [(n, ns)]
  | (m, x) :: rest, n, ns =>
    if m = n then (n, ns) :: rest else (m, x) :: setIface rest n ns

/-- The OS state visible to the embedded code. -/
structure Sys where
  /-- identity of the operating thread's current network namespace -/
  curNS : Nat
  /-- open namespace handles: fd mapped to the namespace identity it refers to -/
  fds : List (Int × Nat)
  /-- namespace membership of each named kernel interface -/
  ifaces : List (String × Nat)
  /-- next file descriptor the OS will hand out -/
  nextFd : Int
  /-- syscall clock, used to index injected failures -/
  clk : Nat
  /-- number of set-current-namespace syscalls issued so far -/
  setCalls : Nat
  /-- number of warning-level log records emitted so far -/
  warns : Nat
deriving Repr, DecidableEq

/-- Environment: injected spurious OS failures (per syscall-clock index) and
the namespace identity each URL path resolves to (`none` = unresolvable,
e.g. a missing or empty path). -/
structure Env where
  fail : Nat → Bool
  nsOfPath : String → Option Nat

/-- Advance the syscall clock without any other effect. -/
def tick (s : Sys) : Sys := { s with clk := s.clk + 1 }

/-- All open fds are below the allocator's next fd (true of every state the
OS can actually produce: the OS never hands out an fd that is already open). -/
def fdsBounded (s : Sys) : Prop := ∀ p ∈ s.fds, p.1 < s.nextFd

instance (s : Sys) : Decidable (fdsBounded s) := by
  unfold fdsBounded; infer_instance

/-- OS fd allocation: hand out the next fd, referring to namespace `ns`. -/
def allocFd (s : Sys) (ns : Nat) : Sys :=
  { s with fds := (s.nextFd, ns) :: s.fds, nextFd := s.nextFd + 1,
           clk := s.clk + 1 }

/-- `netns.Get`: open a fresh handle to the current namespace. -/
def netnsGet (env : Env) (s : Sys) : Except Unit Int × Sys :=
  if env.fail s.clk then (.error (), tick s)
  else (.ok s.nextFd, allocFd s s.curNS)

/-- `netns.Set`: issue a set-current-namespace syscall for the namespace the
given handle refers to.  The syscall is issued (and counted) even when it
fails: invalid handle, or injected OS failure. -/
def netnsSet (env : Env) (s : Sys) (fd : Int) : Except Unit Unit × Sys :=
  match lookupFd s.fds fd with
  | none => (.error (), { s with clk := s.clk + 1, setCalls := s.setCalls + 1 })
  | some ns =>
    if env.fail s.clk then
      (.error (), { s with clk := s.clk + 1, setCalls := s.setCalls + 1 })
    else
      (.ok (), { s with curNS := ns, clk := s.clk + 1,
                        setCalls := s.setCalls + 1 })

/-- `netns.NsHandle.Equal`: true when the two handles are the same fd, or both
are open and refer to the same namespace identity (stat-based comparison). -/
def handleEqual (s : Sys) (a b : Int) : Bool :=
  a == b ||
    match lookupFd s.fds a, lookupFd s.fds b with
    | some x, some y => x == y
    | _, _ => false

/-- `netns.GetFromPath`: open a handle to the namespace a path resolves to. -/
def netnsGetFromPath (env : Env) (s : Sys) (p : String) : Except Unit Int × Sys :=
  match env.nsOfPath p with
  | none => (.error (), tick s)
  | some ns =>
    if env.fail s.clk then (.error (), tick s)
    else (.ok s.nextFd, allocFd s ns)

/-- `netns.NsHandle.Close`: release an open handle; closing a handle that is
not open (e.g. the invalid handle -1) fails. -/
def handleClose (s : Sys) (fd : Int) : Except Unit Unit × Sys :=
  match lookupFd s.fds fd with
  | none => (.error (), tick s)
  | some _ => (.ok (), { s with fds := removeFd s.fds fd, clk := s.clk + 1 })

/-- `netlink.LinkByName`: resolve a named interface in the namespace currently
active on the operating thread. -/
def linkByName (s : Sys) (name : String) : Except Unit String × Sys :=
  match lookupIface s.ifaces name with
  | some ns => if ns = s.curNS then (.ok name, tick s) else (.error (), tick s)
  | none => (.error (), tick s)

/-- `netlink.LinkSetNsFd`: reassign an interface's namespace membership to the
namespace the given handle refers to. -/
def linkSetNsFd (env : Env) (s : Sys) (name : String) (fd : Int) :
    Except Unit Unit × Sys :=
  match lookupFd s.fds fd with
  | none => (.error (), tick s)
  | some ns =>
    if env.fail s.clk then (.error (), tick s)
    else (.ok (), { s with ifaces := setIface s.ifaces name ns, clk := s.clk + 1 })

/-- `nsswitch.NSSwitch`: holds the base ("home") namespace handle. -/
structure NSSwitch where
  NetNSHandle : Int
deriving Repr, DecidableEq

/-- `nsswitch.NewNSSwitch`: capture the current namespace as home. -/
def newNSSwitch (env : Env) (s : Sys) : Except Unit NSSwitch × Sys :=
  match netnsGet env s with
  | (.error e, s1) => (.error e, s1)
  | (.ok fd, s1) => (.ok ⟨fd⟩, s1)

/-- `NSSwitch.SwitchTo`: read the current namespace; if it already equals the
requested one, do nothing; otherwise issue one set-current-namespace call. -/
def NSSwitch.SwitchTo (sw : NSSwitch) (env : Env) (s : Sys) (netNSHandle : Int) :
    Except Unit Unit × Sys :=
  match netnsGet env s with
  | (.error e, s1) => (.error e, s1)
  | (.ok cur, s1) =>
    if handleEqual s1 cur netNSHandle then (.ok (), s1)
    else netnsSet env s1 netNSHandle

/-- `NSSwitch.Close`: release the home handle; on success the stored handle
field becomes the invalid handle -1. -/
def NSSwitch.Close (sw : NSSwitch) (s : Sys) :
    (Except Unit Unit × NSSwitch) × Sys :=
  match handleClose s sw.NetNSHandle with
  | (.error e, s1) => ((.error e, sw), s1)
  | (.ok _, s1) => ((.ok (), { sw with NetNSHandle := -1 }), s1)

/-- Outcome of `moveInterfaceToAnotherNamespace`: success, failure of the
initial switch, failure of the interface lookup, failure of the reassignment,
or the panic raised when the deferred restore-to-home switch fails. -/
inductive MoveResult where
  | ok
  | switchErr
  | lookupErr
  | relocErr
  | panicked
deriving Repr, DecidableEq

/-- The body of `moveInterfaceToAnotherNamespace` between the two switches:
resolve the interface in the now-current namespace and reassign it. -/
def relocateLink (env : Env) (s : Sys) (ifName : String) (toNetNS : Int) :
    MoveResult × Sys :=
  match linkByName s ifName with
  | (.error _, s2) => (.lookupErr, s2)
  | (.ok link, s2) =>
    match linkSetNsFd env s2 link toNetNS with
    | (.error _, s3) => (.relocErr, s3)
    | (.ok _, s3) => (.ok, s3)

/-- `moveInterfaceToAnotherNamespace`: switch to the source namespace (on
failure return immediately, the deferred restore is not yet registered);
then run the lookup/reassign body; then unconditionally run the deferred
restore switch to home, whose failure panics regardless of the pending
result. -/
def moveInterfaceToAnotherNamespace (env : Env) (s : Sys) (nsSwitch : NSSwitch)
    (ifName : String) (fromNetNS toNetNS : Int) : MoveResult × Sys :=
  match nsSwitch.SwitchTo env s fromNetNS with
  | (.error _, s1) => (.switchErr, s1)
  | (.ok _, s1) =>
    let body := relocateLink env s1 ifName toNetNS
    match nsSwitch.SwitchTo env body.2 nsSwitch.NetNSHandle with
    | (.error _, s3) => (.panicked, s3)
    | (.ok _, s3) => (body.1, s3)

/-- `initNetNSSwitchAndHandle`: build the switcher, then open the client
namespace handle from the URL; on the latter's failure the switcher is
closed again before returning. -/
def initNetNSSwitchAndHandle (env : Env) (s : Sys) (netNSURL : String) :
    Except Unit (NSSwitch × Int) × Sys :=
  match newNSSwitch env s with
  | (.error _, s1) => (.error (), s1)
  | (.ok sw, s1) =>
    match netnsGetFromPath env s1 netNSURL with
    | (.error _, s2) => (.error (), (NSSwitch.Close sw s2).2)
    | (.ok h, s2) => (.ok (sw, h), s2)

/-- The deferred cleanup of `Request`/`Close`: close the switcher, then close
the client namespace handle, ignoring both errors. -/
def releaseHandles (sw : NSSwitch) (clientNetNSHandle : Int) (s : Sys) : Sys :=
  (handleClose (NSSwitch.Close sw s).2 clientNetNSHandle).2

/-- Result of the inject server's `Request`. -/
inductive RequestResult where
  | panicked
  | acquisitionErr
  | moveErr (e : MoveResult)
  | delegationErr
  | okConn
deriving Repr, DecidableEq

/-- Result of the inject server's `Close`. -/
inductive CloseResult where
  | panicked
  | acquisitionErr
  | moveErr (e : MoveResult)
  | delegationErr
  | okEmpty
deriving Repr, DecidableEq

/-- `injectServer.Request`: init switcher and client handle; move the
interface from the forwarder's (home) namespace into the client's; delegate
downstream (`nextOk` is the opaque next element's verdict); on delegation
failure run the compensating move back home, emitting a warning log when it
fails, and return the delegation error regardless.  The deferred
`releaseHandles` runs on every exit path past init, including panic
unwinding. -/
def inject.Request (env : Env) (s : Sys) (netNSURL ifName : String)
    (nextOk : Bool) : RequestResult × Sys :=
  match initNetNSSwitchAndHandle env s netNSURL with
  | (.error _, s1) => (.acquisitionErr, s1)
  | (.ok (nsSwitch, clientNetNSHandle), s1) =>
    match moveInterfaceToAnotherNamespace env s1 nsSwitch ifName
        nsSwitch.NetNSHandle clientNetNSHandle with
    | (.panicked, s2) => (.panicked, releaseHandles nsSwitch clientNetNSHandle s2)
    | (.ok, s2) =>
      if nextOk then (.okConn, releaseHandles nsSwitch clientNetNSHandle s2)
      else
        match moveInterfaceToAnotherNamespace env s2 nsSwitch ifName
            clientNetNSHandle nsSwitch.NetNSHandle with
        | (.panicked, s3) =>
          (.panicked, releaseHandles nsSwitch clientNetNSHandle s3)
        | (.ok, s3) =>
          (.delegationErr, releaseHandles nsSwitch clientNetNSHandle s3)
        | (_, s3) =>
          (.delegationErr,
            releaseHandles nsSwitch clientNetNSHandle
              { s3 with warns := s3.warns + 1 })
    | (e, s2) => (.moveErr e, releaseHandles nsSwitch clientNetNSHandle s2)

/-- `injectServer.Close`: init switcher and client handle; move the interface
from the client's namespace back to the forwarder's (home); a move failure is
returned to the caller and downstream `Close` is not invoked; otherwise
delegate downstream.  `releaseHandles` runs on every exit path past init. -/
def inject.Close (env : Env) (s : Sys) (netNSURL ifName : String)
    (nextOk : Bool) : CloseResult × Sys :=
  match initNetNSSwitchAndHandle env s netNSURL with
  | (.error _, s1) => (.acquisitionErr, s1)
  | (.ok (nsSwitch, clientNetNSHandle), s1) =>
    match moveInterfaceToAnotherNamespace env s1 nsSwitch ifName
        clientNetNSHandle nsSwitch.NetNSHandle with
    | (.panicked, s2) => (.panicked, releaseHandles nsSwitch clientNetNSHandle s2)
    | (.ok, s2) =>
      if nextOk then (.okEmpty, releaseHandles nsSwitch clientNetNSHandle s2)
      else (.delegationErr, releaseHandles nsSwitch clientNetNSHandle s2)
    | (e, s2) => (.moveErr e, releaseHandles nsSwitch clientNetNSHandle s2)

/-- Concrete environment with no injected OS failures; one resolvable
client-namespace path. -/
def envOk : Env :=
  { fail := fun _ => false,
    nsOfPath := fun p => if p = "/run/netns/client" then some 1 else none }

/-- Concrete environment in which every fallible OS call fails. -/
def envFailAll : Env := { fail := fun _ => true, nsOfPath := fun _ => none }

/-- Concrete environment failing exactly at syscall-clock index 4 (the
restore switch of a concrete `moveInterfaceToAnotherNamespace` run). -/
def envFailAt4 : Env := { fail := fun k => k == 4, nsOfPath := fun _ => none }

/-- Concrete base state: thread in namespace 0 (the forwarder home), two open
handles, two interfaces. -/
def sys0 : Sys :=
  { curNS := 0, fds := [(3, 0), (4, 1)], ifaces := [("veth0", 0), ("eth1", 1)],
    nextFd := 5, clk := 0, setCalls := 0, warns := 0 }

/-! ### Basic lemmas about the handle table and interface map -/

theorem lookupFd_mem {l : List (Int × Nat)} {x : Int} {v : Nat}
    (h : lookupFd l x = some v) : (x, v) ∈ l := by
  induction l with
  | nil => simp [lookupFd] at h
  | cons p rest ih =>
    obtain ⟨fd, ns⟩ := p
    by_cases hfd : fd = x
    · subst hfd
      simp [lookupFd] at h
      simp [h]
    · rw [lookupFd, if_neg hfd] at h
      exact List.mem_cons_of_mem _ (ih h)

theorem lookupFd_some_lt {s : Sys} {x : Int} {v : Nat} (hb : fdsBounded s)
    (h : lookupFd s.fds x = some v) : x < s.nextFd :=
  hb _ (lookupFd_mem h)

theorem lookupFd_cons_ne {fd : Int} {ns : Nat} {l : List (Int × Nat)} {x : Int}
    (h : fd ≠ x) : lookupFd ((fd, ns) :: l) x = lookupFd l x := by
  rw [lookupFd, if_neg h]

theorem removeFd_subset {l : List (Int × Nat)} {x : Int} {p : Int × Nat}
    (h : p ∈ removeFd l x) : p ∈ l := by
  induction l with
  | nil => simp [removeFd] at h
  | cons q rest ih =>
    obtain ⟨fd, ns⟩ := q
    by_cases hfd : fd = x
    · rw [removeFd, if_pos hfd] at h
      exact List.mem_cons_of_mem _ (ih h)
    · rw [removeFd, if_neg hfd] at h
      rcases List.mem_cons.mp h with h' | h'
      · exact h' ▸ List.mem_cons_self _ _
      · exact List.mem_cons_of_mem _ (ih h')

theorem lookupFd_removeFd_self {l : List (Int × Nat)} {x : Int} :
    lookupFd (removeFd l x) x = none := by
  induction l with
  | nil => simp [removeFd, lookupFd]
  | cons q rest ih =>
    obtain ⟨fd, ns⟩ := q
    by_cases hfd : fd = x
    · rw [removeFd, if_pos hfd]; exact ih
    · rw [removeFd, if_neg hfd, lookupFd, if_neg hfd]; exact ih

theorem lookupFd_removeFd_none {l : List (Int × Nat)} {x y : Int}
    (h : lookupFd l y = none) : lookupFd (removeFd l x) y = none := by
  induction l with
  | nil => simp [removeFd, lookupFd]
  | cons q rest ih =>
    obtain ⟨fd, ns⟩ := q
    by_cases hfd : fd = y
    · rw [lookupFd, if_pos hfd] at h; exact absurd h (by simp)
    · rw [lookupFd, if_neg hfd] at h
      by_cases hx : fd = x
      · rw [removeFd, if_pos hx]; exact ih h
      · rw [removeFd, if_neg hx, lookupFd, if_neg hfd]; exact ih h

theorem lookupIface_setIface_self {l : List (String × Nat)} {n : String} {ns : Nat} :
    lookupIface (setIface l n ns) n = some ns := by
  induction l with
  | nil => simp [setIface, lookupIface]
  | cons q rest ih =>
    obtain ⟨m, x⟩ := q
    by_cases hm : m = n
    · rw [setIface, if_pos hm, lookupIface, if_pos rfl]
    · rw [setIface, if_neg hm, lookupIface, if_neg hm]; exact ih

/-! ### Lemmas about the fd allocator -/

theorem fdsBounded_allocFd {s : Sys} (hb : fdsBounded s) (ns : Nat) :
    fdsBounded (allocFd s ns) := by
  intro p hp
  simp only [allocFd] at hp ⊢
  rcases List.mem_cons.mp hp with h' | h'
  · simp [h']
  · have := hb _ h'
    omega

theorem lookupFd_allocFd_pres {s : Sys} {x : Int} {v : Nat} (hb : fdsBounded s)
    (h : lookupFd s.fds x = some v) (ns : Nat) :
    lookupFd (allocFd s ns).fds x = some v := by
  have hlt := lookupFd_some_lt hb h
  simp only [allocFd]
  rw [lookupFd_cons_ne (by omega)]
  exact h

theorem lookupFd_allocFd_self {s : Sys} (ns : Nat) :
    lookupFd (allocFd s ns).fds s.nextFd = some ns := by
  simp [allocFd, lookupFd]

/-! ### Equations and frame lemmas for the OS primitives -/

theorem netnsGet_fail {env : Env} {s : Sys} (hf : env.fail s.clk = true) :
    netnsGet env s = (.error (), tick s) := by
  unfold netnsGet; rw [if_pos hf]

theorem netnsGet_ok {env : Env} {s : Sys} (hf : env.fail s.clk = false) :
    netnsGet env s = (.ok s.nextFd, allocFd s s.curNS) := by
  unfold netnsGet; rw [if_neg (by simp [hf])]

theorem netnsSet_frame (env : Env) (s : Sys) (fd : Int) :
    (netnsSet env s fd).2.fds = s.fds ∧ (netnsSet env s fd).2.nextFd = s.nextFd ∧
    (netnsSet env s fd).2.ifaces = s.ifaces ∧
    (netnsSet env s fd).2.warns = s.warns ∧
    (netnsSet env s fd).2.setCalls = s.setCalls + 1 := by
  unfold netnsSet
  cases hl : lookupFd s.fds fd with
  | none => simp
  | some ns => by_cases hf : env.fail s.clk <;> simp [hf]

theorem netnsSet_ok_curNS {env : Env} {s : Sys} {fd : Int} {t : Nat}
    (hl : lookupFd s.fds fd = some t)
    (h : (netnsSet env s fd).1 = .ok ()) : (netnsSet env s fd).2.curNS = t := by
  unfold netnsSet at h ⊢
  rw [hl] at h ⊢
  by_cases hf : env.fail s.clk <;> simp [hf] at h ⊢

theorem netnsSet_err_curNS {env : Env} {s : Sys} {fd : Int}
    (h : (netnsSet env s fd).1 = .error ()) :
    (netnsSet env s fd).2.curNS = s.curNS := by
  unfold netnsSet at h ⊢
  cases hl : lookupFd s.fds fd with
  | none => simp
  | some ns =>
    rw [hl] at h
    by_cases hf : env.fail s.clk <;> simp [hf] at h ⊢

theorem handleEqual_some_some {s : Sys} {a b : Int} {x y : Nat}
    (ha : lookupFd s.fds a = some x) (hbq : lookupFd s.fds b = some y)
    (hne : a ≠ b) : handleEqual s a b = (x == y) := by
  unfold handleEqual
  rw [ha, hbq, beq_eq_false_iff_ne.mpr hne]
  simp

theorem handleClose_frame (s : Sys) (fd : Int) :
    (handleClose s fd).2.curNS = s.curNS ∧
    (handleClose s fd).2.ifaces = s.ifaces ∧
    (handleClose s fd).2.nextFd = s.nextFd ∧
    (handleClose s fd).2.warns = s.warns ∧
    (handleClose s fd).2.setCalls = s.setCalls := by
  unfold handleClose
  cases hl : lookupFd s.fds fd <;> simp [tick]

theorem handleClose_lookup_self (s : Sys) (fd : Int) :
    lookupFd (handleClose s fd).2.fds fd = none := by
  unfold handleClose
  cases hl : lookupFd s.fds fd with
  | none => simpa [tick] using hl
  | some ns => simpa using lookupFd_removeFd_self

theorem handleClose_lookup_none (s : Sys) (fd : Int) {y : Int}
    (h : lookupFd s.fds y = none) : lookupFd (handleClose s fd).2.fds y = none := by
  unfold handleClose
  cases hl : lookupFd s.fds fd with
  | none => simpa [tick] using h
  | some ns => simpa using lookupFd_removeFd_none h

theorem handleClose_bounded {s : Sys} (hb : fdsBounded s) (fd : Int) :
    fdsBounded (handleClose s fd).2 := by
  unfold handleClose
  cases hl : lookupFd s.fds fd with
  | none => exact fun p hp => hb p hp
  | some ns =>
    intro p hp
    simp only at hp ⊢
    exact hb _ (removeFd_subset hp)

/-! ### Lemmas about `NSSwitch.SwitchTo` -/

theorem switchTo_frame (sw : NSSwitch) (env : Env) (s : Sys) (tgt : Int)
    (hb : fdsBounded s) :
    fdsBounded (sw.SwitchTo env s tgt).2 ∧
    s.nextFd ≤ (sw.SwitchTo env s tgt).2.nextFd ∧
    (∀ x v, lookupFd s.fds x = some v →
      lookupFd (sw.SwitchTo env s tgt).2.fds x = some v) ∧
    (sw.SwitchTo env s tgt).2.ifaces = s.ifaces ∧
    (sw.SwitchTo env s tgt).2.warns = s.warns := by
  unfold NSSwitch.SwitchTo
  by_cases hf : env.fail s.clk
  · rw [netnsGet_fail hf]
    exact ⟨hb, le_refl _, fun x v h => h, rfl, rfl⟩
  · rw [netnsGet_ok (by simpa using hf)]
    dsimp only
    split
    · refine ⟨fdsBounded_allocFd hb _, by simp [allocFd], ?_, rfl, rfl⟩
      intro x v h
      exact lookupFd_allocFd_pres hb h _
    · obtain ⟨h1, h2, h3, h4, _⟩ := netnsSet_frame env (allocFd s s.curNS) tgt
      refine ⟨?_, ?_, ?_, ?_, ?_⟩
      · intro p hp
        rw [h1] at hp
        rw [h2]
        exact fdsBounded_allocFd hb _ p hp
      · rw [h2]; simp [allocFd]
      · intro x v h
        rw [h1]
        exact lookupFd_allocFd_pres hb h _
      · rw [h3]; rfl
      · rw [h4]; rfl

theorem switchTo_ok_curNS {sw : NSSwitch} {env : Env} {s : Sys} {tgt : Int}
    {t : Nat} (hb : fdsBounded s) (hl : lookupFd s.fds tgt = some t)
    (h : (sw.SwitchTo env s tgt).1 = .ok ()) :
    (sw.SwitchTo env s tgt).2.curNS = t := by
  unfold NSSwitch.SwitchTo at h ⊢
  by_cases hf : env.fail s.clk
  · rw [netnsGet_fail hf] at h
    simp at h
  · rw [netnsGet_ok (by simpa using hf)] at h ⊢
    dsimp only at h ⊢
    have hne : s.nextFd ≠ tgt := by
      have := lookupFd_some_lt hb hl
      omega
    have heqv : handleEqual (allocFd s s.curNS) s.nextFd tgt = (s.curNS == t) :=
      handleEqual_some_some (lookupFd_allocFd_self _)
        (lookupFd_allocFd_pres hb hl _) hne
    by_cases hc : s.curNS = t
    · rw [heqv, if_pos (by simp [hc])]
      simp [allocFd, hc]
    · rw [heqv, if_neg (by simp [hc])] at h ⊢
      exact netnsSet_ok_curNS (lookupFd_allocFd_pres hb hl _) h

theorem switchTo_err_state {sw : NSSwitch} {env : Env} {s : Sys} {tgt : Int}
    (h : (sw.SwitchTo env s tgt).1 = .error ()) :
    (sw.SwitchTo env s tgt).2.curNS = s.curNS ∧
    (sw.SwitchTo env s tgt).2.ifaces = s.ifaces := by
  unfold NSSwitch.SwitchTo at h ⊢
  by_cases hf : env.fail s.clk
  · rw [netnsGet_fail hf]
    exact ⟨rfl, rfl⟩
  · rw [netnsGet_ok (by simpa using hf)] at h ⊢
    dsimp only at h ⊢
    split at h
    · simp at h
    · rw [if_neg (by assumption)]
      have h1 := netnsSet_err_curNS h
      have h2 := (netnsSet_frame env (allocFd s s.curNS) tgt).2.2.1
      exact ⟨by rw [h1]; rfl, by rw [h2]; rfl⟩

/-! ### Lemmas about `relocateLink` -/

theorem relocateLink_frame (env : Env) (s : Sys) (n : String) (tgt : Int) :
    (relocateLink env s n tgt).2.fds = s.fds ∧
    (relocateLink env s n tgt).2.nextFd = s.nextFd ∧
    (relocateLink env s n tgt).2.curNS = s.curNS ∧
    (relocateLink env s n tgt).2.warns = s.warns ∧
    (relocateLink env s n tgt).2.setCalls = s.setCalls := by
  unfold relocateLink linkByName linkSetNsFd
  cases hi : lookupIface s.ifaces n with
  | none => simp [tick]
  | some ns =>
    dsimp only
    by_cases hc : ns = s.curNS
    · rw [if_pos hc]
      dsimp only [tick]
      cases hl : lookupFd s.fds tgt with
      | none => simp
      | some m => by_cases hf : env.fail (s.clk + 1) <;> simp [hf]
    · rw [if_neg hc]
      simp [tick]

theorem relocateLink_ok_ifaces {env : Env} {s : Sys} {n : String} {tgt : Int}
    {t : Nat} (hl : lookupFd s.fds tgt = some t)
    (h : (relocateLink env s n tgt).1 = .ok) :
    (relocateLink env s n tgt).2.ifaces = setIface s.ifaces n t := by
  unfold relocateLink linkByName linkSetNsFd at h ⊢
  cases hi : lookupIface s.ifaces n with
  | none => rw [hi] at h; simp at h
  | some ns =>
    rw [hi] at h
    dsimp only at h ⊢
    by_cases hc : ns = s.curNS
    · rw [if_pos hc] at h ⊢
      dsimp only [tick] at h ⊢
      rw [hl] at h ⊢
      dsimp only at h ⊢
      by_cases hf : env.fail (s.clk + 1)
      · rw [if_pos hf] at h
        simp at h
      · rw [if_neg hf] at h ⊢
    · rw [if_neg hc] at h
      simp at h

theorem relocateLink_err_ifaces {env : Env} {s : Sys} {n : String} {tgt : Int}
    (h : (relocateLink env s n tgt).1 ≠ .ok) :
    (relocateLink env s n tgt).2.ifaces = s.ifaces := by
  unfold relocateLink linkByName linkSetNsFd at h ⊢
  cases hi : lookupIface s.ifaces n with
  | none => simp [tick]
  | some ns =>
    rw [hi] at h
    dsimp only at h ⊢
    by_cases hc : ns = s.curNS
    · rw [if_pos hc] at h ⊢
      dsimp only [tick] at h ⊢
      cases hl : lookupFd s.fds tgt with
      | none => simp
      | some m =>
        rw [hl] at h
        dsimp only at h
        by_cases hf : env.fail (s.clk + 1)
        · simp [hf]
        · rw [if_neg hf] at h
          simp at h
    · rw [if_neg hc]
      simp [tick]

/-! ### Lemmas about `moveInterfaceToAnotherNamespace` -/

theorem move_frame (env : Env) (s : Sys) (sw : NSSwitch) (n : String)
    (fromNS toNS : Int) (hb : fdsBounded s) :
    fdsBounded (moveInterfaceToAnotherNamespace env s sw n fromNS toNS).2 ∧
    (∀ x v, lookupFd s.fds x = some v →
      lookupFd (moveInterfaceToAnotherNamespace env s sw n fromNS toNS).2.fds x
        = some v) ∧
    (moveInterfaceToAnotherNamespace env s sw n fromNS toNS).2.warns = s.warns := by
  unfold moveInterfaceToAnotherNamespace
  rcases hsw : sw.SwitchTo env s fromNS with ⟨r1, s1⟩
  obtain ⟨f1, _, f3, _, f5⟩ := switchTo_frame sw env s fromNS hb
  rw [hsw] at f1 f3 f5
  dsimp only at f1 f3 f5
  cases r1 with
  | error e => exact ⟨f1, f3, f5⟩
  | ok u =>
    dsimp only
    obtain ⟨g1, g2, _, g4, _⟩ := relocateLink_frame env s1 n toNS
    have hb2 : fdsBounded (relocateLink env s1 n toNS).2 := by
      intro p hp
      rw [g1] at hp
      rw [g2]
      exact f1 p hp
    rcases hsw2 : sw.SwitchTo env (relocateLink env s1 n toNS).2 sw.NetNSHandle
      with ⟨r2, s3⟩
    obtain ⟨k1, _, k3, _, k5⟩ :=
      switchTo_frame sw env (relocateLink env s1 n toNS).2 sw.NetNSHandle hb2
    rw [hsw2] at k1 k3 k5
    dsimp only at k1 k3 k5
    have hlk : ∀ x v, lookupFd s.fds x = some v → lookupFd s3.fds x = some v := by
      intro x v hx
      apply k3
      rw [g1]
      exact f3 x v hx
    have hw : s3.warns = s.warns := by rw [k5, g4, f5]
    cases r2 with
    | error e => exact ⟨k1, hlk, hw⟩
    | ok u => exact ⟨k1, hlk, hw⟩

theorem move_switchErr_eq {env : Env} {s : Sys} {sw : NSSwitch} {n : String}
    {fromNS toNS : Int} (h : (sw.SwitchTo env s fromNS).1 = .error ()) :
    moveInterfaceToAnotherNamespace env s sw n fromNS toNS
      = (.switchErr, (sw.SwitchTo env s fromNS).2) := by
  unfold moveInterfaceToAnotherNamespace
  rcases hsw : sw.SwitchTo env s fromNS with ⟨r1, s1⟩
  rw [hsw] at h
  dsimp only at h ⊢
  cases r1 with
  | error e => rfl
  | ok u => simp at h

theorem move_ok_spec {env : Env} {s : Sys} {sw : NSSwitch} {n : String}
    {fromNS toNS : Int} {h t : Nat} (hb : fdsBounded s)
    (hhome : lookupFd s.fds sw.NetNSHandle = some h)
    (hto : lookupFd s.fds toNS = some t)
    (hok : (moveInterfaceToAnotherNamespace env s sw n fromNS toNS).1 = .ok) :
    (moveInterfaceToAnotherNamespace env s sw n fromNS toNS).2.curNS = h ∧
    (moveInterfaceToAnotherNamespace env s sw n fromNS toNS).2.ifaces
      = setIface s.ifaces n t ∧
    fdsBounded (moveInterfaceToAnotherNamespace env s sw n fromNS toNS).2 ∧
    (moveInterfaceToAnotherNamespace env s sw n fromNS toNS).2.warns = s.warns := by
  unfold moveInterfaceToAnotherNamespace at hok ⊢
  rcases hsw : sw.SwitchTo env s fromNS with ⟨r1, s1⟩
  obtain ⟨f1, _, f3, f4, f5⟩ := switchTo_frame sw env s fromNS hb
  rw [hsw] at f1 f3 f4 f5 hok
  dsimp only at f1 f3 f4 f5 hok ⊢
  cases r1 with
  | error e => simp at hok
  | ok u =>
    dsimp only at hok ⊢
    obtain ⟨g1, g2, _, g4, _⟩ := relocateLink_frame env s1 n toNS
    have hb2 : fdsBounded (relocateLink env s1 n toNS).2 := by
      intro p hp
      rw [g1] at hp
      rw [g2]
      exact f1 p hp
    rcases hsw2 : sw.SwitchTo env (relocateLink env s1 n toNS).2 sw.NetNSHandle
      with ⟨r2, s3⟩
    obtain ⟨k1, _, k3, k4, k5⟩ :=
      switchTo_frame sw env (relocateLink env s1 n toNS).2 sw.NetNSHandle hb2
    rw [hsw2] at k1 k3 k4 k5 hok
    dsimp only at k1 k3 k4 k5 hok ⊢
    cases r2 with
    | error e => simp at hok
    | ok u =>
      dsimp only at hok
      cases u
      have hok2 : (sw.SwitchTo env (relocateLink env s1 n toNS).2
          sw.NetNSHandle).1 = .ok () := by
        rw [hsw2]
      have hhome2 : lookupFd (relocateLink env s1 n toNS).2.fds sw.NetNSHandle
          = some h := by
        rw [g1]
        exact f3 _ _ hhome
      have hcur := switchTo_ok_curNS hb2 hhome2 hok2
      rw [hsw2] at hcur
      dsimp only at hcur
      have hto1 : lookupFd s1.fds toNS = some t := f3 _ _ hto
      have hifc := relocateLink_ok_ifaces hto1 hok
      refine ⟨hcur, ?_, k1, ?_⟩
      · rw [k4, hifc, f4]
      · rw [k5, g4, f5]

/-! ### Lemmas about construction, path resolution and handle release -/

theorem newNSSwitch_fail {env : Env} {s : Sys} (hf : env.fail s.clk = true) :
    newNSSwitch env s = (.error (), tick s) := by
  unfold newNSSwitch
  rw [netnsGet_fail hf]

theorem newNSSwitch_ok {env : Env} {s : Sys} (hf : env.fail s.clk = false) :
    newNSSwitch env s = (.ok ⟨s.nextFd⟩, allocFd s s.curNS) := by
  unfold newNSSwitch
  rw [netnsGet_ok hf]

theorem getFromPath_none {env : Env} {s : Sys} {p : String}
    (hp : env.nsOfPath p = none) :
    netnsGetFromPath env s p = (.error (), tick s) := by
  unfold netnsGetFromPath
  rw [hp]

theorem getFromPath_fail {env : Env} {s : Sys} {p : String} {ns : Nat}
    (hp : env.nsOfPath p = some ns) (hf : env.fail s.clk = true) :
    netnsGetFromPath env s p = (.error (), tick s) := by
  unfold netnsGetFromPath
  rw [hp]
  dsimp only
  rw [if_pos hf]

theorem getFromPath_ok {env : Env} {s : Sys} {p : String} {ns : Nat}
    (hp : env.nsOfPath p = some ns) (hf : env.fail s.clk = false) :
    netnsGetFromPath env s p = (.ok s.nextFd, allocFd s ns) := by
  unfold netnsGetFromPath
  rw [hp]
  dsimp only
  rw [if_neg (by simp [hf])]

theorem nsClose_state (sw : NSSwitch) (s : Sys) :
    (NSSwitch.Close sw s).2 = (handleClose s sw.NetNSHandle).2 := by
  unfold NSSwitch.Close
  rcases hc : handleClose s sw.NetNSHandle with ⟨rc, s1⟩
  cases rc <;> rfl

theorem releaseHandles_frame (sw : NSSwitch) (ch : Int) (s : Sys) :
    (releaseHandles sw ch s).curNS = s.curNS ∧
    (releaseHandles sw ch s).ifaces = s.ifaces ∧
    (releaseHandles sw ch s).warns = s.warns ∧
    (releaseHandles sw ch s).setCalls = s.setCalls := by
  unfold releaseHandles
  rw [nsClose_state]
  obtain ⟨a1, a2, _, a4, a5⟩ := handleClose_frame s sw.NetNSHandle
  obtain ⟨b1, b2, _, b4, b5⟩ :=
    handleClose_frame (handleClose s sw.NetNSHandle).2 ch
  exact ⟨by rw [b1, a1], by rw [b2, a2], by rw [b4, a4], by rw [b5, a5]⟩

theorem releaseHandles_lookup (sw : NSSwitch) (ch : Int) (s : Sys) :
    lookupFd (releaseHandles sw ch s).fds sw.NetNSHandle = none ∧
    lookupFd (releaseHandles sw ch s).fds ch = none := by
  unfold releaseHandles
  rw [nsClose_state]
  exact ⟨handleClose_lookup_none _ ch (handleClose_lookup_self s sw.NetNSHandle),
    handleClose_lookup_self _ ch⟩

theorem init_none {env : Env} {s : Sys} {url : String}
    (hp : env.nsOfPath url = none) :
    (initNetNSSwitchAndHandle env s url).1 = .error () ∧
    (initNetNSSwitchAndHandle env s url).2.ifaces = s.ifaces ∧
    (initNetNSSwitchAndHandle env s url).2.setCalls = s.setCalls := by
  unfold initNetNSSwitchAndHandle
  by_cases hf : env.fail s.clk
  · rw [newNSSwitch_fail hf]
    exact ⟨rfl, rfl, rfl⟩
  · rw [newNSSwitch_ok (by simpa using hf)]
    dsimp only
    rw [getFromPath_none hp]
    dsimp only
    rw [nsClose_state]
    obtain ⟨_, a2, _, _, a5⟩ :=
      handleClose_frame (tick (allocFd s s.curNS)) s.nextFd
    refine ⟨rfl, ?_, ?_⟩
    · rw [a2]; rfl
    · rw [a5]; rfl

theorem init_ok_inv {env : Env} {s : Sys} {url : String} {sw : NSSwitch}
    {ch : Int} {t : Nat} (hb : fdsBounded s) (hp : env.nsOfPath url = some t)
    (h : (initNetNSSwitchAndHandle env s url).1 = .ok (sw, ch)) :
    lookupFd (initNetNSSwitchAndHandle env s url).2.fds sw.NetNSHandle
      = some s.curNS ∧
    lookupFd (initNetNSSwitchAndHandle env s url).2.fds ch = some t ∧
    fdsBounded (initNetNSSwitchAndHandle env s url).2 ∧
    (initNetNSSwitchAndHandle env s url).2.curNS = s.curNS ∧
    (initNetNSSwitchAndHandle env s url).2.ifaces = s.ifaces ∧
    (initNetNSSwitchAndHandle env s url).2.warns = s.warns := by
  unfold initNetNSSwitchAndHandle at h ⊢
  by_cases hf : env.fail s.clk
  · rw [newNSSwitch_fail hf] at h
    simp at h
  · rw [newNSSwitch_ok (by simpa using hf)] at h ⊢
    dsimp only at h ⊢
    by_cases hf2 : env.fail (allocFd s s.curNS).clk
    · rw [getFromPath_fail hp hf2] at h
      simp at h
    · rw [getFromPath_ok hp (by simpa using hf2)] at h ⊢
      dsimp only at h ⊢
      simp only [Except.ok.injEq, Prod.mk.injEq] at h
      obtain ⟨h1, h2⟩ := h
      subst h1
      subst h2
      refine ⟨?_, ?_, ?_, rfl, rfl, rfl⟩
      · exact lookupFd_allocFd_pres (fdsBounded_allocFd hb _)
          (lookupFd_allocFd_self _) t
      · exact lookupFd_allocFd_self _
      · exact fdsBounded_allocFd (fdsBounded_allocFd hb _) t

/-! ### Further lemmas about `NSSwitch.Close` and `releaseHandles` -/

theorem handleClose_none {s : Sys} {fd : Int} (h : lookupFd s.fds fd = none) :
    handleClose s fd = (.error (), tick s) := by
  unfold handleClose
  rw [h]

theorem nsClose_ok_inv {sw : NSSwitch} {s : Sys}
    (hok : ((NSSwitch.Close sw s).1).1 = .ok ()) :
    ((NSSwitch.Close sw s).1).2 = ⟨-1⟩ ∧
    (NSSwitch.Close sw s).2.fds = removeFd s.fds sw.NetNSHandle := by
  unfold NSSwitch.Close at hok ⊢
  rcases hc : handleClose s sw.NetNSHandle with ⟨rc, s1⟩
  rw [hc] at hok
  cases rc with
  | error e => simp at hok
  | ok u =>
    refine ⟨rfl, ?_⟩
    unfold handleClose at hc
    cases hl : lookupFd s.fds sw.NetNSHandle with
    | none => rw [hl] at hc; simp at hc
    | some v =>
      rw [hl] at hc
      dsimp only at hc
      have h2 := congrArg Prod.snd hc
      dsimp only at h2
      rw [← h2]

theorem nsClose_err {sw : NSSwitch} {s : Sys}
    (h : lookupFd s.fds sw.NetNSHandle = none) :
    NSSwitch.Close sw s = ((.error (), sw), tick s) := by
  unfold NSSwitch.Close
  rw [handleClose_none h]

theorem releaseHandles_bounded {s : Sys} (hb : fdsBounded s) (sw : NSSwitch)
    (ch : Int) : fdsBounded (releaseHandles sw ch s) := by
  unfold releaseHandles
  rw [nsClose_state]
  exact handleClose_bounded (handleClose_bounded hb _) _

theorem move_after_switch {env : Env} {s : Sys} {sw : NSSwitch} {n : String}
    {fromNS toNS : Int} {u : Unit} {s1 : Sys}
    (h1 : sw.SwitchTo env s fromNS = (.ok u, s1)) :
    moveInterfaceToAnotherNamespace env s sw n fromNS toNS
      = (match sw.SwitchTo env (relocateLink env s1 n toNS).2 sw.NetNSHandle with
         | (.error _, s3) => (.panicked, s3)
         | (.ok _, s3) => ((relocateLink env s1 n toNS).1, s3)) := by
  unfold moveInterfaceToAnotherNamespace
  rw [h1]

/-! ### Claim theorems -/

/-- C1: for every `moveInterfaceToAnotherNamespace` call whose initial switch
to the source namespace succeeds, on every exit path that does not panic
(success, interface-lookup failure, reassignment failure) the operating
thread's current namespace equals the namespace the switcher's home handle
refers to; only a failed restore switch (the panic path) may leave the
thread elsewhere. -/
theorem claim_C1_move_restores_home (env : Env) (s : Sys) (sw : NSSwitch)
    (n : String) (fromNS toNS : Int) (h : Nat)
    (hb : fdsBounded s)
    (hhome : lookupFd s.fds sw.NetNSHandle = some h)
    (hsw : (sw.SwitchTo env s fromNS).1 = .ok ())
    (hnp : (moveInterfaceToAnotherNamespace env s sw n fromNS toNS).1
      ≠ .panicked) :
    (moveInterfaceToAnotherNamespace env s sw n fromNS toNS).2.curNS = h := by
  rcases hsw1 : sw.SwitchTo env s fromNS with ⟨r1, s1⟩
  obtain ⟨f1, _, f3, _, _⟩ := switchTo_frame sw env s fromNS hb
  rw [hsw1] at f1 f3 hsw
  dsimp only at f1 f3 hsw
  cases r1 with
  | error e => simp at hsw
  | ok u =>
    rw [move_after_switch hsw1] at hnp ⊢
    obtain ⟨g1, g2, _, _, _⟩ := relocateLink_frame env s1 n toNS
    have hb2 : fdsBounded (relocateLink env s1 n toNS).2 := by
      intro p hp
      rw [g1] at hp
      rw [g2]
      exact f1 p hp
    have hhome2 : lookupFd (relocateLink env s1 n toNS).2.fds sw.NetNSHandle
        = some h := by
      rw [g1]
      exact f3 _ _ hhome
    rcases hsw2 : sw.SwitchTo env (relocateLink env s1 n toNS).2 sw.NetNSHandle
      with ⟨r2, s3⟩
    rw [hsw2] at hnp
    cases r2 with
    | error e => exact absurd rfl hnp
    | ok u2 =>
      have hok2 : (sw.SwitchTo env (relocateLink env s1 n toNS).2
          sw.NetNSHandle).1 = .ok () := by
        rw [hsw2]
      have hcur := switchTo_ok_curNS hb2 hhome2 hok2
      rw [hsw2] at hcur
      exact hcur

/-- C4: for every `moveInterfaceToAnotherNamespace` call in which the
mandatory restore-to-home switch fails, the call panics (the embedded
`UnrecoverableStateError`): the pending outcome is never continued past or
absorbed. -/
theorem claim_C4_restore_failure_panics (env : Env) (s : Sys) (sw : NSSwitch)
    (n : String) (fromNS toNS : Int)
    (hsw : (sw.SwitchTo env s fromNS).1 = .ok ())
    (hres : (sw.SwitchTo env
        (relocateLink env (sw.SwitchTo env s fromNS).2 n toNS).2
        sw.NetNSHandle).1 = .error ()) :
    (moveInterfaceToAnotherNamespace env s sw n fromNS toNS).1 = .panicked := by
  unfold moveInterfaceToAnotherNamespace
  rcases hsw1 : sw.SwitchTo env s fromNS with ⟨r1, s1⟩
  rw [hsw1] at hsw hres
  dsimp only at hsw hres ⊢
  cases r1 with
  | error e => simp at hsw
  | ok u =>
    dsimp only
    rcases hsw2 : sw.SwitchTo env (relocateLink env s1 n toNS).2 sw.NetNSHandle
      with ⟨r2, s3⟩
    rw [hsw2] at hres
    dsimp only at hres
    cases r2 with
    | error e => rfl
    | ok u => simp at hres

/-- C7: for every `moveInterfaceToAnotherNamespace` call in which the initial
switch to the source namespace fails, the call returns exactly the switch
error and the state the failed switch left (no lookup, no reassignment, no
restore switch afterwards), and the thread's current namespace and the
interface table are unchanged. -/
theorem claim_C7_initial_switch_failure (env : Env) (s : Sys) (sw : NSSwitch)
    (n : String) (fromNS toNS : Int)
    (hsw : (sw.SwitchTo env s fromNS).1 = .error ()) :
    moveInterfaceToAnotherNamespace env s sw n fromNS toNS
      = (.switchErr, (sw.SwitchTo env s fromNS).2) ∧
    (sw.SwitchTo env s fromNS).2.curNS = s.curNS ∧
    (sw.SwitchTo env s fromNS).2.ifaces = s.ifaces :=
  ⟨move_switchErr_eq hsw, (switchTo_err_state hsw).1, (switchTo_err_state hsw).2⟩

/-- C9: for every `NSSwitch` whose `Close` succeeds, the stored home handle
field becomes the invalid handle -1 and the home fd is no longer open; a
second `Close` on the result operates on -1, fails, and releases nothing. -/
theorem claim_C9_close_releases_once (s : Sys) (sw : NSSwitch)
    (hminus : lookupFd s.fds (-1) = none)
    (hok : ((NSSwitch.Close sw s).1).1 = .ok ()) :
    ((NSSwitch.Close sw s).1).2.NetNSHandle = -1 ∧
    lookupFd (NSSwitch.Close sw s).2.fds sw.NetNSHandle = none ∧
    ((NSSwitch.Close ((NSSwitch.Close sw s).1).2 (NSSwitch.Close sw s).2).1).1
      = .error () ∧
    (NSSwitch.Close ((NSSwitch.Close sw s).1).2 (NSSwitch.Close sw s).2).2.fds
      = (NSSwitch.Close sw s).2.fds := by
  obtain ⟨hswm, hfds⟩ := nsClose_ok_inv hok
  have hm1 : lookupFd (NSSwitch.Close sw s).2.fds (-1) = none := by
    rw [hfds]
    exact lookupFd_removeFd_none hminus
  refine ⟨by rw [hswm], ?_, ?_, ?_⟩
  · rw [hfds]
    exact lookupFd_removeFd_self
  · rw [hswm, nsClose_err hm1]
  · rw [hswm, nsClose_err hm1]
    rfl

/-- C10: for every `SwitchTo` call in which reading the thread's current
namespace fails, `SwitchTo` returns the error without issuing any
set-current-namespace call, and the thread's namespace membership (and the
interface table) is unchanged. -/
theorem claim_C10_get_failure_no_set (env : Env) (s : Sys) (sw : NSSwitch)
    (tgt : Int) (hget : (netnsGet env s).1 = .error ()) :
    (sw.SwitchTo env s tgt).1 = .error () ∧
    (sw.SwitchTo env s tgt).2.setCalls = s.setCalls ∧
    (sw.SwitchTo env s tgt).2.curNS = s.curNS ∧
    (sw.SwitchTo env s tgt).2.ifaces = s.ifaces := by
  unfold NSSwitch.SwitchTo
  by_cases hf : env.fail s.clk
  · rw [netnsGet_fail hf]
    exact ⟨rfl, rfl, rfl, rfl⟩
  · rw [netnsGet_ok (by simpa using hf)] at hget
    simp at hget

/-- C5 counterexample: a concrete `SwitchTo` call whose target namespace
(identity 1, via handle 4) differs from the thread's current namespace
(identity 0), yet which issues no set-current-namespace call at all, because
the read of the current namespace fails; this falsifies the unconditional
"otherwise it issues exactly one set-current-namespace call". -/
theorem claim_C5_counterexample :
    lookupFd sys0.fds 4 = some 1 ∧ sys0.curNS = 0 ∧
    (NSSwitch.SwitchTo ⟨3⟩ envFailAll sys0 4).2.setCalls = sys0.setCalls ∧
    ¬((NSSwitch.SwitchTo ⟨3⟩ envFailAll sys0 4).2.setCalls
        = sys0.setCalls + 1) := by
  refine ⟨by decide, by decide, by decide, by decide⟩

/-- C5 (amended): provided the read of the thread's current namespace
succeeds, `SwitchTo` with a target namespace equal to the current one is a
no-op — it returns success, issues no set-current-namespace call and leaves
the current namespace unchanged; with a target namespace different from the
current one it issues exactly one set-current-namespace call. -/
theorem claim_C5_switchTo_noop (env : Env) (s : Sys) (sw : NSSwitch)
    (tgt : Int) (t : Nat) (hb : fdsBounded s)
    (hl : lookupFd s.fds tgt = some t)
    (hget : (netnsGet env s).1 ≠ .error ()) :
    (t = s.curNS →
      (sw.SwitchTo env s tgt).1 = .ok () ∧
      (sw.SwitchTo env s tgt).2.setCalls = s.setCalls ∧
      (sw.SwitchTo env s tgt).2.curNS = s.curNS) ∧
    (t ≠ s.curNS →
      (sw.SwitchTo env s tgt).2.setCalls = s.setCalls + 1) := by
  by_cases hf : env.fail s.clk
  · exact absurd (by rw [netnsGet_fail hf]) hget
  · have hf2 : env.fail s.clk = false := by simpa using hf
    unfold NSSwitch.SwitchTo
    rw [netnsGet_ok hf2]
    dsimp only
    have hne : s.nextFd ≠ tgt := by
      have := lookupFd_some_lt hb hl
      omega
    have heqv : handleEqual (allocFd s s.curNS) s.nextFd tgt = (s.curNS == t) :=
      handleEqual_some_some (lookupFd_allocFd_self _)
        (lookupFd_allocFd_pres hb hl _) hne
    constructor
    · intro hc
      rw [heqv, if_pos (by simp [hc])]
      exact ⟨rfl, rfl, rfl⟩
    · intro hc
      rw [heqv, if_neg (by simp only [beq_iff_eq]; exact fun hh => hc hh.symm)]
      rw [(netnsSet_frame env (allocFd s s.curNS) tgt).2.2.2.2]
      rfl

/-- C5 witness: on a concrete state with target namespace 1 different from
the current namespace 0, one set-current-namespace call is issued. -/
theorem claim_C5_switchTo_noop_witness :
    (NSSwitch.SwitchTo ⟨3⟩ envOk sys0 4).2.setCalls = sys0.setCalls + 1 :=
  (claim_C5_switchTo_noop envOk sys0 ⟨3⟩ 4 1 (by decide) (by decide)
    (fun hcon => nomatch hcon)).2 (by decide)

/-- C6 counterexample: a `Request` whose connection carries a valid
target-namespace reference but an empty interface name does not fail with an
acquisition error: the element proceeds into relocation and fails there with
a lookup error. -/
theorem claim_C6_counterexample :
    (inject.Request envOk sys0 "/run/netns/client" "" true).1
      = RequestResult.moveErr .lookupErr ∧
    ¬((inject.Request envOk sys0 "/run/netns/client" "" true).1
      = RequestResult.acquisitionErr) := by
  refine ⟨by decide, by decide⟩

/-- C6 (amended): for every `Request` or `Close` whose target-namespace
reference does not resolve (including a missing or empty reference), the
operation fails with an acquisition error and no relocation is attempted —
the interface table and set-call counter are untouched.  An empty interface
name, by contrast, is not validated up front: relocation is attempted and
fails at the interface lookup (see the counterexample). -/
theorem claim_C6_unresolvable_reference (env : Env) (s : Sys) (url n : String)
    (nextOk : Bool) (hp : env.nsOfPath url = none) :
    (inject.Request env s url n nextOk).1 = .acquisitionErr ∧
    (inject.Request env s url n nextOk).2.ifaces = s.ifaces ∧
    (inject.Request env s url n nextOk).2.setCalls = s.setCalls ∧
    (inject.Close env s url n nextOk).1 = .acquisitionErr ∧
    (inject.Close env s url n nextOk).2.ifaces = s.ifaces ∧
    (inject.Close env s url n nextOk).2.setCalls = s.setCalls := by
  obtain ⟨h1, h2, h3⟩ := @init_none env s url hp
  unfold inject.Request inject.Close
  rcases hi : initNetNSSwitchAndHandle env s url with ⟨ri, s1⟩
  rw [hi] at h1 h2 h3
  dsimp only at h1 h2 h3
  cases ri with
  | ok pr => simp at h1
  | error e => exact ⟨rfl, h2, h3, rfl, h2, h3⟩

/-- C6 witness: a concrete unresolvable path yields an acquisition error. -/
theorem claim_C6_unresolvable_reference_witness :
    (inject.Request envOk sys0 "/missing" "veth0" true).1
      = RequestResult.acquisitionErr :=
  (claim_C6_unresolvable_reference envOk sys0 "/missing" "veth0" true
    (by decide)).1

/-! ### Whole-run equations for `Request` and `Close` -/

theorem request_after_init (env : Env) (s : Sys) (url n : String)
    (nextOk : Bool) {sw : NSSwitch} {ch : Int} {s1 : Sys}
    (h1 : initNetNSSwitchAndHandle env s url = (.ok (sw, ch), s1)) :
    inject.Request env s url n nextOk
      = (match moveInterfaceToAnotherNamespace env s1 sw n sw.NetNSHandle ch with
         | (.panicked, s2) => (.panicked, releaseHandles sw ch s2)
         | (.ok, s2) =>
           if nextOk then (.okConn, releaseHandles sw ch s2)
           else
             match moveInterfaceToAnotherNamespace env s2 sw n ch
                 sw.NetNSHandle with
             | (.panicked, s3) => (.panicked, releaseHandles sw ch s3)
             | (.ok, s3) => (.delegationErr, releaseHandles sw ch s3)
             | (_, s3) =>
               (.delegationErr,
                 releaseHandles sw ch { s3 with warns := s3.warns + 1 })
         | (e, s2) => (.moveErr e, releaseHandles sw ch s2)) := by
  unfold inject.Request
  rw [h1]

theorem close_after_init (env : Env) (s : Sys) (url n : String)
    (nextOk : Bool) {sw : NSSwitch} {ch : Int} {s1 : Sys}
    (h1 : initNetNSSwitchAndHandle env s url = (.ok (sw, ch), s1)) :
    inject.Close env s url n nextOk
      = (match moveInterfaceToAnotherNamespace env s1 sw n ch sw.NetNSHandle with
         | (.panicked, s2) => (.panicked, releaseHandles sw ch s2)
         | (.ok, s2) =>
           if nextOk then (.okEmpty, releaseHandles sw ch s2)
           else (.delegationErr, releaseHandles sw ch s2)
         | (e, s2) => (.moveErr e, releaseHandles sw ch s2)) := by
  unfold inject.Close
  rw [h1]

theorem request_ok_eq (env : Env) (s : Sys) (url n : String)
    {sw : NSSwitch} {ch : Int} {s1 s2 : Sys}
    (h1 : initNetNSSwitchAndHandle env s url = (.ok (sw, ch), s1))
    (h2 : moveInterfaceToAnotherNamespace env s1 sw n sw.NetNSHandle ch
      = (.ok, s2)) :
    inject.Request env s url n true = (.okConn, releaseHandles sw ch s2) := by
  rw [request_after_init env s url n true h1, h2]
  rfl

theorem close_ok_eq (env : Env) (s : Sys) (url n : String)
    {sw : NSSwitch} {ch : Int} {s1 s2 : Sys}
    (h1 : initNetNSSwitchAndHandle env s url = (.ok (sw, ch), s1))
    (h2 : moveInterfaceToAnotherNamespace env s1 sw n ch sw.NetNSHandle
      = (.ok, s2)) :
    inject.Close env s url n true = (.okEmpty, releaseHandles sw ch s2) := by
  rw [close_after_init env s url n true h1, h2]
  rfl

theorem request_deleg_eq (env : Env) (s : Sys) (url n : String)
    {sw : NSSwitch} {ch : Int} {s1 s2 : Sys}
    (h1 : initNetNSSwitchAndHandle env s url = (.ok (sw, ch), s1))
    (h2 : moveInterfaceToAnotherNamespace env s1 sw n sw.NetNSHandle ch
      = (.ok, s2)) :
    inject.Request env s url n false
      = (match moveInterfaceToAnotherNamespace env s2 sw n ch
            sw.NetNSHandle with
         | (.panicked, s3) => (.panicked, releaseHandles sw ch s3)
         | (.ok, s3) => (.delegationErr, releaseHandles sw ch s3)
         | (_, s3) =>
           (.delegationErr,
             releaseHandles sw ch { s3 with warns := s3.warns + 1 })) := by
  rw [request_after_init env s url n false h1, h2]
  rfl

/-- C8: for every `Close` in which the relocation of the interface from the
target namespace back home fails, that relocation error is returned to the
caller (whatever the downstream verdict would be — the downstream `Close` is
never consulted), and both the switcher's home handle and the client
namespace handle are closed in the state handed back. -/
theorem claim_C8_close_returns_relocation_error (env : Env) (s : Sys)
    (url n : String) (nextOk : Bool) (sw : NSSwitch) (ch : Int) (e : MoveResult)
    (hinit : (initNetNSSwitchAndHandle env s url).1 = .ok (sw, ch))
    (hmv : (moveInterfaceToAnotherNamespace env
        (initNetNSSwitchAndHandle env s url).2 sw n ch sw.NetNSHandle).1 = e)
    (he : e = .switchErr ∨ e = .lookupErr ∨ e = .relocErr) :
    (inject.Close env s url n nextOk).1 = .moveErr e ∧
    lookupFd (inject.Close env s url n nextOk).2.fds sw.NetNSHandle = none ∧
    lookupFd (inject.Close env s url n nextOk).2.fds ch = none := by
  rcases hi : initNetNSSwitchAndHandle env s url with ⟨ri, s1⟩
  rw [hi] at hinit hmv
  dsimp only at hinit hmv
  cases ri with
  | error e2 => simp at hinit
  | ok pr =>
    obtain ⟨swa, cha⟩ := pr
    simp only [Except.ok.injEq, Prod.mk.injEq] at hinit
    obtain ⟨hs1, hs2⟩ := hinit
    subst hs1
    subst hs2
    rw [close_after_init env s url n nextOk hi]
    rcases hm : moveInterfaceToAnotherNamespace env s1 swa n cha swa.NetNSHandle
      with ⟨rm, s2⟩
    rw [hm] at hmv
    dsimp only at hmv
    subst hmv
    rcases he with he | he | he <;> subst he <;>
      exact ⟨rfl, (releaseHandles_lookup swa cha s2).1,
        (releaseHandles_lookup swa cha s2).2⟩

/-- C3: for every `Request` in which relocation into the client namespace
succeeded but delegation to the next element failed, the element runs the
compensating move back home and, provided that compensation does not panic,
always returns the delegation error; the compensation's own outcome is
reported only through the warning-log counter (unchanged on compensation
success, incremented by one on compensation failure) and never replaces the
returned error. -/
theorem claim_C3_delegation_error_returned (env : Env) (s : Sys)
    (url n : String) (sw : NSSwitch) (ch : Int)
    (hinit : (initNetNSSwitchAndHandle env s url).1 = .ok (sw, ch))
    (hmv1 : (moveInterfaceToAnotherNamespace env
        (initNetNSSwitchAndHandle env s url).2 sw n sw.NetNSHandle ch).1 = .ok)
    (hnp : (moveInterfaceToAnotherNamespace env
        (moveInterfaceToAnotherNamespace env
          (initNetNSSwitchAndHandle env s url).2 sw n sw.NetNSHandle ch).2
        sw n ch sw.NetNSHandle).1 ≠ .panicked) :
    (inject.Request env s url n false).1 = .delegationErr ∧
    ((moveInterfaceToAnotherNamespace env
        (moveInterfaceToAnotherNamespace env
          (initNetNSSwitchAndHandle env s url).2 sw n sw.NetNSHandle ch).2
        sw n ch sw.NetNSHandle).1 = .ok →
      (inject.Request env s url n false).2.warns
        = (moveInterfaceToAnotherNamespace env
            (moveInterfaceToAnotherNamespace env
              (initNetNSSwitchAndHandle env s url).2 sw n sw.NetNSHandle ch).2
            sw n ch sw.NetNSHandle).2.warns) ∧
    ((moveInterfaceToAnotherNamespace env
        (moveInterfaceToAnotherNamespace env
          (initNetNSSwitchAndHandle env s url).2 sw n sw.NetNSHandle ch).2
        sw n ch sw.NetNSHandle).1 ≠ .ok →
      (inject.Request env s url n false).2.warns
        = (moveInterfaceToAnotherNamespace env
            (moveInterfaceToAnotherNamespace env
              (initNetNSSwitchAndHandle env s url).2 sw n sw.NetNSHandle ch).2
            sw n ch sw.NetNSHandle).2.warns + 1) := by
  rcases hi : initNetNSSwitchAndHandle env s url with ⟨ri, s1⟩
  rw [hi] at hinit hmv1 hnp
  dsimp only at hinit hmv1 hnp ⊢
  cases ri with
  | error e2 => simp at hinit
  | ok pr =>
    obtain ⟨swa, cha⟩ := pr
    simp only [Except.ok.injEq, Prod.mk.injEq] at hinit
    obtain ⟨hs1, hs2⟩ := hinit
    subst hs1
    subst hs2
    rcases hm1 : moveInterfaceToAnotherNamespace env s1 swa n swa.NetNSHandle cha
      with ⟨rm1, s2⟩
    rw [hm1] at hmv1 hnp
    dsimp only at hmv1 hnp ⊢
    subst hmv1
    rw [request_deleg_eq env s url n hi hm1]
    rcases hm2 : moveInterfaceToAnotherNamespace env s2 swa n cha swa.NetNSHandle
      with ⟨rm2, s3⟩
    rw [hm2] at hnp
    dsimp only at hnp ⊢
    cases rm2 with
    | panicked => exact absurd rfl hnp
    | ok =>
      exact ⟨rfl, fun _ => (releaseHandles_frame swa cha s3).2.2.1,
        fun hq => absurd rfl hq⟩
    | switchErr =>
      exact ⟨rfl, fun hq => absurd hq (by decide), fun _ =>
        (releaseHandles_frame swa cha { s3 with warns := s3.warns + 1 }).2.2.1⟩
    | lookupErr =>
      exact ⟨rfl, fun hq => absurd hq (by decide), fun _ =>
        (releaseHandles_frame swa cha { s3 with warns := s3.warns + 1 }).2.2.1⟩
    | relocErr =>
      exact ⟨rfl, fun hq => absurd hq (by decide), fun _ =>
        (releaseHandles_frame swa cha { s3 with warns := s3.warns + 1 }).2.2.1⟩

/-! ### Success-path inversions for `Request` and `Close` -/

theorem request_ok_inv {env : Env} {s : Sys} {url n : String} {t : Nat}
    (hb : fdsBounded s) (hp : env.nsOfPath url = some t)
    (hok : (inject.Request env s url n true).1 = .okConn) :
    (inject.Request env s url n true).2.curNS = s.curNS ∧
    lookupIface (inject.Request env s url n true).2.ifaces n = some t ∧
    fdsBounded (inject.Request env s url n true).2 := by
  rcases hi : initNetNSSwitchAndHandle env s url with ⟨ri, s1⟩
  cases ri with
  | error e =>
    have heq : inject.Request env s url n true = (.acquisitionErr, s1) := by
      unfold inject.Request
      rw [hi]
    rw [heq] at hok
    exact absurd (show RequestResult.acquisitionErr = .okConn from hok)
      (by decide)
  | ok pr =>
    obtain ⟨sw, ch⟩ := pr
    have hinit : (initNetNSSwitchAndHandle env s url).1 = .ok (sw, ch) := by
      rw [hi]
    obtain ⟨i1, i2, i3, i4, i5, i6⟩ := init_ok_inv hb hp hinit
    rw [hi] at i1 i2 i3 i4 i5 i6
    dsimp only at i1 i2 i3 i4 i5 i6
    have heq := request_after_init env s url n true hi
    rcases hm : moveInterfaceToAnotherNamespace env s1 sw n sw.NetNSHandle ch
      with ⟨rm, s2⟩
    rw [hm] at heq
    cases rm with
    | panicked =>
      rw [heq] at hok
      exact absurd (show RequestResult.panicked = .okConn from hok) (by decide)
    | switchErr =>
      rw [heq] at hok
      exact absurd (show RequestResult.moveErr .switchErr = .okConn from hok)
        (by decide)
    | lookupErr =>
      rw [heq] at hok
      exact absurd (show RequestResult.moveErr .lookupErr = .okConn from hok)
        (by decide)
    | relocErr =>
      rw [heq] at hok
      exact absurd (show RequestResult.moveErr .relocErr = .okConn from hok)
        (by decide)
    | ok =>
      have heqq := request_ok_eq env s url n hi hm
      have hmok : (moveInterfaceToAnotherNamespace env s1 sw n sw.NetNSHandle
          ch).1 = .ok := by
        rw [hm]
      obtain ⟨m1, m2, m3, _⟩ := move_ok_spec i3 i1 i2 hmok
      rw [hm] at m1 m2 m3
      dsimp only at m1 m2 m3
      rw [heqq]
      dsimp only
      obtain ⟨r1, r2, _, _⟩ := releaseHandles_frame sw ch s2
      refine ⟨?_, ?_, ?_⟩
      · rw [r1, m1]
      · rw [r2, m2]
        exact lookupIface_setIface_self
      · exact releaseHandles_bounded m3 sw ch

theorem close_ok_inv {env : Env} {s : Sys} {url n : String} {t : Nat}
    (hb : fdsBounded s) (hp : env.nsOfPath url = some t)
    (hok : (inject.Close env s url n true).1 = .okEmpty) :
    lookupIface (inject.Close env s url n true).2.ifaces n = some s.curNS := by
  rcases hi : initNetNSSwitchAndHandle env s url with ⟨ri, s1⟩
  cases ri with
  | error e =>
    have heq : inject.Close env s url n true = (.acquisitionErr, s1) := by
      unfold inject.Close
      rw [hi]
    rw [heq] at hok
    exact absurd (show CloseResult.acquisitionErr = .okEmpty from hok)
      (by decide)
  | ok pr =>
    obtain ⟨sw, ch⟩ := pr
    have hinit : (initNetNSSwitchAndHandle env s url).1 = .ok (sw, ch) := by
      rw [hi]
    obtain ⟨i1, i2, i3, i4, i5, i6⟩ := init_ok_inv hb hp hinit
    rw [hi] at i1 i2 i3 i4 i5 i6
    dsimp only at i1 i2 i3 i4 i5 i6
    have heq := close_after_init env s url n true hi
    rcases hm : moveInterfaceToAnotherNamespace env s1 sw n ch sw.NetNSHandle
      with ⟨rm, s2⟩
    rw [hm] at heq
    cases rm with
    | panicked =>
      rw [heq] at hok
      exact absurd (show CloseResult.panicked = .okEmpty from hok) (by decide)
    | switchErr =>
      rw [heq] at hok
      exact absurd (show CloseResult.moveErr .switchErr = .okEmpty from hok)
        (by decide)
    | lookupErr =>
      rw [heq] at hok
      exact absurd (show CloseResult.moveErr .lookupErr = .okEmpty from hok)
        (by decide)
    | relocErr =>
      rw [heq] at hok
      exact absurd (show CloseResult.moveErr .relocErr = .okEmpty from hok)
        (by decide)
    | ok =>
      have heqq := close_ok_eq env s url n hi hm
      have hmok : (moveInterfaceToAnotherNamespace env s1 sw n ch
          sw.NetNSHandle).1 = .ok := by
        rw [hm]
      obtain ⟨m1, m2, m3, _⟩ := move_ok_spec i3 i1 i1 hmok
      rw [hm] at m1 m2 m3
      dsimp only at m1 m2 m3
      rw [heqq]
      dsimp only
      rw [(releaseHandles_frame sw ch s2).2.1, m2]
      exact lookupIface_setIface_self

/-- C2: for every connection with a resolvable target-namespace reference,
a successful `Request` leaves the interface's namespace membership equal to
the target namespace, and a subsequent successful `Close` on the same
connection restores the membership to the home (forwarder) namespace the
thread started in — the two operations compose to a round trip. -/
theorem claim_C2_round_trip (env : Env) (s : Sys) (url n : String) (t : Nat)
    (hb : fdsBounded s) (hp : env.nsOfPath url = some t)
    (hreq : (inject.Request env s url n true).1 = .okConn)
    (hcl : (inject.Close env (inject.Request env s url n true).2 url n true).1
      = .okEmpty) :
    lookupIface (inject.Request env s url n true).2.ifaces n = some t ∧
    lookupIface (inject.Close env (inject.Request env s url n true).2 url n
        true).2.ifaces n = some s.curNS := by
  obtain ⟨q1, q2, q3⟩ := request_ok_inv hb hp hreq
  have h2 := close_ok_inv q3 hp hcl
  rw [q1] at h2
  exact ⟨q2, h2⟩

/-! ### Witnesses: the claim theorems applied at concrete inputs -/

/-- C1 witness: a concrete move of `eth1` from namespace 1 (handle 4) to
namespace 0 (handle 3) ends with the thread back in home namespace 0. -/
theorem claim_C1_move_restores_home_witness :
    (moveInterfaceToAnotherNamespace envOk sys0 ⟨3⟩ "eth1" 4 3).2.curNS = 0 :=
  claim_C1_move_restores_home envOk sys0 ⟨3⟩ "eth1" 4 3 0 (by decide)
    (by decide) rfl (by decide)

/-- C2 witness: a concrete successful Request moves `veth0` into the client
namespace 1 and the subsequent successful Close moves it back to home 0. -/
theorem claim_C2_round_trip_witness :
    lookupIface (inject.Request envOk sys0 "/run/netns/client" "veth0"
        true).2.ifaces "veth0" = some 1 ∧
    lookupIface (inject.Close envOk (inject.Request envOk sys0
        "/run/netns/client" "veth0" true).2 "/run/netns/client" "veth0"
        true).2.ifaces "veth0" = some 0 :=
  claim_C2_round_trip envOk sys0 "/run/netns/client" "veth0" 1 (by decide)
    (by decide) (by decide) (by decide)

/-- C3 witness: on a concrete delegation failure after a successful
relocation, the Request returns the delegation error. -/
theorem claim_C3_delegation_error_returned_witness :
    (inject.Request envOk sys0 "/run/netns/client" "veth0" false).1
      = RequestResult.delegationErr :=
  (claim_C3_delegation_error_returned envOk sys0 "/run/netns/client" "veth0"
    ⟨5⟩ 6 rfl (by decide) (by decide)).1

/-- C4 witness: with a failure injected exactly at the restore switch, a
concrete move panics. -/
theorem claim_C4_restore_failure_panics_witness :
    (moveInterfaceToAnotherNamespace envFailAt4 sys0 ⟨3⟩ "eth1" 4 3).1
      = MoveResult.panicked :=
  claim_C4_restore_failure_panics envFailAt4 sys0 ⟨3⟩ "eth1" 4 3 rfl rfl

/-- C7 witness: with every OS call failing, a concrete move returns the
switch error together with the state the failed switch left. -/
theorem claim_C7_initial_switch_failure_witness :
    moveInterfaceToAnotherNamespace envFailAll sys0 ⟨3⟩ "veth0" 4 3
      = (.switchErr, (NSSwitch.SwitchTo ⟨3⟩ envFailAll sys0 4).2) :=
  (claim_C7_initial_switch_failure envFailAll sys0 ⟨3⟩ "veth0" 4 3 rfl).1

/-- C8 witness: a concrete Close whose relocation fails at interface lookup
returns that lookup error. -/
theorem claim_C8_close_returns_relocation_error_witness :
    (inject.Close envOk sys0 "/run/netns/client" "veth0" true).1
      = CloseResult.moveErr .lookupErr :=
  (claim_C8_close_returns_relocation_error envOk sys0 "/run/netns/client"
    "veth0" true ⟨5⟩ 6 .lookupErr rfl (by decide) (by decide)).1

/-- C9 witness: a concrete successful Close stores the invalid handle -1. -/
theorem claim_C9_close_releases_once_witness :
    ((NSSwitch.Close ⟨3⟩ sys0).1).2.NetNSHandle = -1 :=
  (claim_C9_close_releases_once sys0 ⟨3⟩ (by decide) rfl).1

/-- C10 witness: with the current-namespace read failing, a concrete
SwitchTo returns the error and issues no set call. -/
theorem claim_C10_get_failure_no_set_witness :
    (NSSwitch.SwitchTo ⟨3⟩ envFailAll sys0 4).2.setCalls = sys0.setCalls :=
  (claim_C10_get_failure_no_set envFailAll sys0 ⟨3⟩ 4 rfl).2.1
